import Mathlib

/-!
Shallow embedding of the seat-reservation engine of app.py (a Flask
application backed by a single reservations table and an admins table),
together with proofs of the specification claims about it.

Modelling conventions:
* A `Reservation` row mirrors the SQLAlchemy model (integer autoincrement id,
  passenger name, integer seat row and column, e-ticket string).  The creation
  timestamp plays no role in any claim and is omitted.
* The database of reservations is a `Store`: a list of rows plus the next
  autoincrement id (SQLite autoincrement starts at 1).
* HTML form fields arrive as optional strings; the booking handler reads the
  seat coordinates through the Python builtin int, which either yields an
  integer or raises — we take the outcome of that builtin parse as an
  `Option Int` input.  Name fields default to the empty string and are
  stripped, mirroring how the handler calls request.form.get with a default
  and then strip.
* secrets.token_hex 6 draws 6 random bytes; the generator is modelled as a
  function of those bytes.
* The Flask session state relevant to the claims is the boolean flag
  admin_logged_in.
-/

namespace SeatApp

/-- A row of the reservations table (class `Reservation` in app.py). -/
structure Reservation where
  id : Nat
  passengerName : String
  seatRow : Int
  seatColumn : Int
  eTicketNumber : String
deriving DecidableEq, Repr

/-- A row of the admins table (class `Admin` in app.py). -/
structure Admin where
  username : String
  password : String
deriving DecidableEq, Repr

/-- The reservation database: its rows and the next autoincrement id. -/
structure Store where
  rows : List Reservation
  nextId : Nat
deriving DecidableEq, Repr

/-- The empty database, as created by db.create_all on first start. -/
def store0 : Store := ⟨[], 1⟩

/-- Python str.strip: drop leading and trailing whitespace. -/
def pyStrip (s : String) : String :=
  ⟨((s.data.dropWhile Char.isWhitespace).reverse.dropWhile Char.isWhitespace).reverse⟩

/-- Python str.upper on ASCII content: uppercase every character. -/
def pyUpper (s : String) : String :=
  ⟨s.data.map Char.toUpper⟩

/-- `get_cost_matrix`: a 12-row list, each row being the prices 100, 75, 50,
100, built by a comprehension over range 12. -/
def get_cost_matrix : List (List Int) :=
  (List.range 12).map (fun _ => [100, 75, 50, 100])

/-- In-bounds test used by `get_seating_chart` and `calculate_total_sales`:
the row lies in [0, 12) and the column in [0, 4). -/
def inBounds (v : Reservation) : Prop :=
  0 ≤ v.seatRow ∧ v.seatRow < 12 ∧ 0 ≤ v.seatColumn ∧ v.seatColumn < 4

instance (v : Reservation) : Decidable (inBounds v) := by
  unfold inBounds; infer_instance

/-- The all-available chart: 12 rows of 4 cells 'O'. -/
def chartInit : List (List Char) :=
  List.replicate 12 (List.replicate 4 'O')

/-- One loop iteration of `get_seating_chart`: mark the seat of one
reservation with 'X' when its coordinates are in bounds. -/
def chartMark (chart : List (List Char)) (v : Reservation) : List (List Char) :=
  if inBounds v then
    chart.set v.seatRow.toNat
      ((chart.getD v.seatRow.toNat []).set v.seatColumn.toNat 'X')
  else chart

/-- `get_seating_chart`: fold the marking loop over all reservations. -/
def get_seating_chart (rows : List Reservation) : List (List Char) :=
  rows.foldl chartMark chartInit

/-- Observation helper: read the chart cell at (row, col), with an arbitrary
default for out-of-range indices (the code only indexes in range). -/
def cell (chart : List (List Char)) (r c : Nat) : Char :=
  (chart.getD r []).getD c ' '

/-- `is_seat_available`: no reservation row matches the given seat. -/
def is_seat_available (rows : List Reservation) (row col : Int) : Bool :=
  (rows.find? (fun v => v.seatRow == row && v.seatColumn == col)).isNone

/-- `calculate_total_sales`: sum the cost-matrix entry at the coordinates of
every in-bounds reservation, starting from a total of 0. -/
def calculate_total_sales (rows : List Reservation) : Int :=
  rows.foldl
    (fun total v =>
      if inBounds v then
        total + (get_cost_matrix.getD v.seatRow.toNat []).getD v.seatColumn.toNat 0
      else total)
    0

/-- Lowercase hexadecimal digit of a nibble, as in the Python hex rendering. -/
def hexChar (n : Nat) : Char :=
  if n < 10 then Char.ofNat (48 + n) else Char.ofNat (87 + n)

/-- secrets.token_hex applied to the given random bytes: each byte becomes
two lowercase hex digits. -/
def token_hex (bytes : List Nat) : String :=
  ⟨(bytes.map (fun b => [hexChar (b / 16), hexChar (b % 16)])).flatten⟩

/-- `generate_eticket_number`: token_hex of the 6 random bytes drawn,
uppercased. -/
def generate_eticket_number (bytes : List Nat) : String :=
  pyUpper (token_hex bytes)

/-- Outcome of a POST to the reservation route (`make_reservation` in app.py),
identified by the rendered response: the `invalidSeat` outcome covers both the
un-parseable and the out-of-range branches, which flash the identical
invalid-seat-selection message and re-render the same page. -/
inductive BookResult where
  | invalidInput
  | invalidSeat
  | seatTaken
  | confirmed (passenger_name : String) (seat_row seat_column : Int)
      (eticket_number : String)
deriving DecidableEq, Repr

/-- The POST branch of `make_reservation`.  The two name arguments are the
form fields (defaulted to the empty string), the two optional integers the
outcome of the builtin int parse on the seat fields (none when it raised),
and `ticket` the value returned by the ticket generator.  Returns the
response and the new store. -/
def make_reservation (s : Store) (first_name last_name : String)
    (seat_row? seat_column? : Option Int) (ticket : String) :
    BookResult × Store :=
  let first := pyStrip first_name
  let last := pyStrip last_name
  if first = "" ∨ last = "" then (.invalidInput, s)
  else
    match seat_row?, seat_column? with
    | some seat_row, some seat_column =>
      if ¬(0 ≤ seat_row ∧ seat_row < 12 ∧ 0 ≤ seat_column ∧ seat_column < 4) then
        (.invalidSeat, s)
      else if ¬is_seat_available s.rows seat_row seat_column then
        (.seatTaken, s)
      else
        let passenger_name := first ++ " " ++ last
        let new : Reservation :=
          ⟨s.nextId, passenger_name, seat_row, seat_column, ticket⟩
        (.confirmed passenger_name seat_row seat_column ticket,
          ⟨s.rows ++ [new], s.nextId + 1⟩)
    | _, _ => (.invalidSeat, s)

/-- Outcome of the admin login POST handler (`admin_login` in app.py),
starting from a logged-out session: the dashboard render on success, the
must-enter-a-username flash when a field is missing or empty, the
invalid-credentials flash otherwise. -/
inductive LoginResult where
  | dashboard
  | missingField
  | authFailure
deriving DecidableEq, Repr

/-- Python truthiness test (the keyword not applied to a field) for an
optional form string. -/
def falsyField (field : Option String) : Bool :=
  match field with
  | none => true
  | some x => x = ""

/-- The POST branch of `admin_login` for a logged-out session: reject missing
or empty fields, then query the admins table filtering by both username and
password.  Returns the response and the new admin_logged_in session flag. -/
def admin_login (admins : List Admin)
    (username password : Option String) : LoginResult × Bool :=
  if falsyField username ∨ falsyField password then (.missingField, false)
  else
    match admins.find?
        (fun a => some a.username == username && some a.password == password) with
    | some _ => (.dashboard, true)
    | none => (.authFailure, false)

/-- The admin bootstrap step of `init_db`: add the default account when the
admins table is empty. -/
def init_db_admins (admins : List Admin) : List Admin :=
  if admins.length = 0 then [⟨"admin", "admin123"⟩] else admins

/-- Outcome of a POST to the admin delete route: the redirect to the login
page when not logged in, the 404 of get_or_404, or success. -/
inductive DeleteResult where
  | unauthorized
  | notFound
  | deleted
deriving DecidableEq, Repr

/-- `delete_reservation`: gate on the admin_logged_in session flag, then look
up the primary key with get_or_404 and delete that row. -/
def delete_reservation (admin_logged_in : Bool) (s : Store)
    (reservation_id : Nat) : DeleteResult × Store :=
  if ¬admin_logged_in then (.unauthorized, s)
  else
    match s.rows.find? (fun v => v.id == reservation_id) with
    | none => (.notFound, s)
    | some _ => (.deleted, ⟨s.rows.filter (fun v => v.id != reservation_id), s.nextId⟩)

/-- At most one reservation record per seat: any two distinct positions of the
row list carry distinct (row, column) pairs. -/
def seatUnique (rows : List Reservation) : Prop :=
  rows.Pairwise (fun a b => ¬(a.seatRow = b.seatRow ∧ a.seatColumn = b.seatColumn))

instance (rows : List Reservation) : Decidable (seatUnique rows) := by
  unfold seatUnique; infer_instance

/-- The stores reachable from the empty database by any sequence of booking
requests and admin delete requests (run to completion one at a time). -/
inductive Reachable : Store → Prop where
  | empty : Reachable store0
  | book (s : Store) (f l : String) (r? c? : Option Int) (t : String) :
      Reachable s → Reachable (make_reservation s f l r? c? t).2
  | del (s : Store) (logged : Bool) (rid : Nat) :
      Reachable s → Reachable (delete_reservation logged s rid).2

/-!
Interleaving model of concurrent booking requests.

`make_reservation` touches the shared database exactly twice: the
availability read (`is_seat_available`, line 155 of app.py) and the
insert-plus-commit (lines 172-173).  Nothing in the code orders these two
accesses across concurrent requests — there is no lock, no transaction
spanning the check and the insert, and no uniqueness constraint on the
(seatRow, seatColumn) pair (only id is a primary key).  So a concurrent
execution of two requests is an arbitrary interleaving of their atomic
database accesses.  We model one in-flight request (whose form input already
passed the name and range validation) by the phase it has reached.
-/

/-- Phase of one in-flight booking request: not yet read the store, has read
the store and found the seat free (resp. taken), or finished. -/
inductive TxPhase where
  | start
  | free
  | taken
  | succeeded
  | failedTaken
deriving DecidableEq, Repr

/-- The request-local data of a booking request that already passed name and
range validation: the joined stripped passenger name and the generated
ticket. -/
structure TxParams where
  passenger_name : String
  ticket : String
deriving DecidableEq, Repr

/-- One atomic database access of a booking request for the given seat: from
`start`, the availability read of line 155; from `free`, the insert-commit of
lines 165-173; from `taken`, the already-reserved response (no store access);
finished phases do nothing. -/
def txStep (s : Store) (ph : TxPhase) (p : TxParams)
    (seat_row seat_column : Int) : Store × TxPhase :=
  match ph with
  | .start =>
      (s, if is_seat_available s.rows seat_row seat_column then .free else .taken)
  | .free =>
      (⟨s.rows ++ [⟨s.nextId, p.passenger_name, seat_row, seat_column, p.ticket⟩],
        s.nextId + 1⟩,
       .succeeded)
  | .taken => (s, .failedTaken)
  | ph => (s, ph)

/-- Shared store plus the phases of two concurrent booking requests A and B. -/
structure RaceState where
  store : Store
  txA : TxPhase
  txB : TxPhase
deriving DecidableEq, Repr

/-- Run one atomic step of request A (who = false) or B (who = true), both
targeting the same given seat. -/
def raceStep (pA pB : TxParams) (seat_row seat_column : Int)
    (st : RaceState) (who : Bool) : RaceState :=
  if who then
    let (s', ph') := txStep st.store st.txB pB seat_row seat_column
    ⟨s', st.txA, ph'⟩
  else
    let (s', ph') := txStep st.store st.txA pA seat_row seat_column
    ⟨s', ph', st.txB⟩

/-- Run a schedule (a list of which request performs its next atomic step). -/
def runRace (pA pB : TxParams) (seat_row seat_column : Int)
    (sched : List Bool) (st : RaceState) : RaceState :=
  sched.foldl (raceStep pA pB seat_row seat_column) st

/-!  Supporting lemmas. -/

lemma getD_set_self (l : List α) (i : Nat) (a d : α) (h : i < l.length) :
    (l.set i a).getD i d = a := by
  simp [List.getD_eq_getElem?_getD, List.getElem?_set_self h]

lemma getD_set_ne (l : List α) {i j : Nat} (a d : α) (h : i ≠ j) :
    (l.set i a).getD j d = l.getD j d := by
  simp [List.getD_eq_getElem?_getD, List.getElem?_set_ne h]

lemma string_mk_length (l : List Char) : (String.mk l).length = l.length := rfl

lemma pyUpper_length (s : String) : (pyUpper s).length = s.length := by
  rw [pyUpper, string_mk_length, List.length_map]
  rfl

lemma make_reservation_success (s : Store) (f l : String) (r c : Int) (t : String)
    (hf : pyStrip f ≠ "") (hl : pyStrip l ≠ "")
    (hrange : 0 ≤ r ∧ r < 12 ∧ 0 ≤ c ∧ c < 4)
    (hfree : is_seat_available s.rows r c = true) :
    make_reservation s f l (some r) (some c) t =
      (.confirmed (pyStrip f ++ " " ++ pyStrip l) r c t,
       ⟨s.rows ++ [⟨s.nextId, pyStrip f ++ " " ++ pyStrip l, r, c, t⟩],
        s.nextId + 1⟩) := by
  simp [make_reservation, hf, hl, hrange, hfree]

lemma make_reservation_taken (s : Store) (f l : String) (r c : Int) (t : String)
    (hf : pyStrip f ≠ "") (hl : pyStrip l ≠ "")
    (hrange : 0 ≤ r ∧ r < 12 ∧ 0 ≤ c ∧ c < 4)
    (hfree : is_seat_available s.rows r c = false) :
    make_reservation s f l (some r) (some c) t = (.seatTaken, s) := by
  simp [make_reservation, hf, hl, hrange, hfree]

lemma make_reservation_out_of_range (s : Store) (f l : String) (r c : Int) (t : String)
    (hf : pyStrip f ≠ "") (hl : pyStrip l ≠ "")
    (hrange : ¬(0 ≤ r ∧ r < 12 ∧ 0 ≤ c ∧ c < 4)) :
    make_reservation s f l (some r) (some c) t = (.invalidSeat, s) := by
  simp [make_reservation, hf, hl, hrange]

lemma is_seat_available_iff (rows : List Reservation) (r c : Int) :
    is_seat_available rows r c = true ↔
      ∀ v ∈ rows, ¬(v.seatRow = r ∧ v.seatColumn = c) := by
  simp [is_seat_available, List.find?_isSome, Option.isNone_iff_eq_none,
    List.find?_eq_none]

lemma is_seat_available_false_of_mem (rows : List Reservation) (r c : Int)
    (v : Reservation) (hmem : v ∈ rows) (hr : v.seatRow = r) (hc : v.seatColumn = c) :
    is_seat_available rows r c = false := by
  cases hb : is_seat_available rows r c with
  | false => rfl
  | true => exact absurd ⟨hr, hc⟩ ((is_seat_available_iff rows r c).mp hb v hmem)

lemma make_reservation_cases (s : Store) (f l : String) (r? c? : Option Int) (t : String) :
    ((make_reservation s f l r? c? t).2 = s
      ∧ ∀ n r c tk, (make_reservation s f l r? c? t).1 ≠ .confirmed n r c tk)
    ∨ (∃ r c : Int, r? = some r ∧ c? = some c
        ∧ (0 ≤ r ∧ r < 12 ∧ 0 ≤ c ∧ c < 4)
        ∧ is_seat_available s.rows r c = true
        ∧ make_reservation s f l r? c? t =
            (.confirmed (pyStrip f ++ " " ++ pyStrip l) r c t,
             ⟨s.rows ++ [⟨s.nextId, pyStrip f ++ " " ++ pyStrip l, r, c, t⟩],
              s.nextId + 1⟩)) := by
  by_cases hname : pyStrip f = "" ∨ pyStrip l = ""
  · left; constructor
    · simp [make_reservation, hname]
    · intro n r c tk; simp [make_reservation, hname]
  · push_neg at hname
    obtain ⟨hf, hl⟩ := hname
    cases r? with
    | none => left; constructor <;> simp [make_reservation, hf, hl]
    | some r =>
      cases c? with
      | none => left; constructor <;> simp [make_reservation, hf, hl]
      | some c =>
        by_cases hrange : 0 ≤ r ∧ r < 12 ∧ 0 ≤ c ∧ c < 4
        · by_cases hfree : is_seat_available s.rows r c = true
          · right
            exact ⟨r, c, rfl, rfl, hrange, hfree,
              make_reservation_success s f l r c t hf hl hrange hfree⟩
          · left
            have heq := make_reservation_taken s f l r c t hf hl hrange
              (by simpa using hfree)
            rw [heq]; exact ⟨rfl, by intro n r' c' tk; simp⟩
        · left
          have heq := make_reservation_out_of_range s f l r c t hf hl hrange
          rw [heq]; exact ⟨rfl, by intro n r' c' tk; simp⟩

lemma delete_rows_sublist (logged : Bool) (s : Store) (rid : Nat) :
    ((delete_reservation logged s rid).2).rows.Sublist s.rows := by
  cases logged with
  | false => simp [delete_reservation]
  | true =>
    cases hfind : s.rows.find? (fun v => v.id == rid) with
    | none => simp [delete_reservation, hfind]
    | some v => simp [delete_reservation, hfind, List.filter_sublist]

lemma chartInit_length : chartInit.length = 12 := by simp [chartInit]

lemma chartInit_rowlen : ∀ i, i < 12 → (chartInit.getD i []).length = 4 := by decide

lemma chartMark_length (chart : List (List Char)) (v : Reservation) :
    (chartMark chart v).length = chart.length := by
  unfold chartMark; split <;> simp

lemma chartMark_rowlen (chart : List (List Char)) (v : Reservation) (i : Nat) :
    ((chartMark chart v).getD i []).length = (chart.getD i []).length := by
  unfold chartMark
  split
  · by_cases hi : v.seatRow.toNat = i
    · subst hi
      by_cases hlt : v.seatRow.toNat < chart.length
      · rw [getD_set_self _ _ _ _ hlt]; simp
      · rw [List.set_eq_of_length_le (Nat.le_of_not_lt hlt)]
    · rw [getD_set_ne _ _ _ hi]
  · rfl

lemma cell_chartMark (chart : List (List Char)) (v : Reservation) (r c : Nat)
    (hr : r < 12) (hc : c < 4) (hlen : chart.length = 12)
    (hrow : ∀ i, i < 12 → (chart.getD i []).length = 4) :
    cell (chartMark chart v) r c =
      if v.seatRow == (r : Int) && v.seatColumn == (c : Int) then 'X'
      else cell chart r c := by
  by_cases hb : inBounds v
  · obtain ⟨hb1, hb2, hb3, hb4⟩ := hb
    have h1 : v.seatRow = (r : Int) ↔ v.seatRow.toNat = r := by omega
    have h2 : v.seatColumn = (c : Int) ↔ v.seatColumn.toNat = c := by omega
    unfold chartMark cell
    rw [if_pos ⟨hb1, hb2, hb3, hb4⟩]
    by_cases hrn : v.seatRow.toNat = r
    · have hlt : v.seatRow.toNat < chart.length := by omega
      by_cases hcn : v.seatColumn.toNat = c
      · have hs1 : v.seatRow = (r : Int) := h1.mpr hrn
        have hs2 : v.seatColumn = (c : Int) := h2.mpr hcn
        rw [hrn, hcn, getD_set_self _ _ _ _ (by omega : r < chart.length)]
        rw [getD_set_self]
        · simp [hs1, hs2]
        · rw [hrow r hr]; exact hc
      · rw [hrn] at *
        rw [getD_set_self _ _ _ _ hlt]
        rw [getD_set_ne _ _ _ hcn]
        have hcond : ¬(v.seatRow == (r : Int) && v.seatColumn == (c : Int)) = true := by
          simp only [Bool.and_eq_true, beq_iff_eq]
          rintro ⟨-, hcc⟩
          exact hcn (h2.mp hcc)
        simp only [hcond, if_false, Bool.not_eq_true] at *
        simp [cell, hcond]
    · rw [getD_set_ne _ _ _ hrn]
      have hcond : ¬(v.seatRow == (r : Int) && v.seatColumn == (c : Int)) = true := by
        simp only [Bool.and_eq_true, beq_iff_eq]
        rintro ⟨hrr, -⟩
        exact hrn (h1.mp hrr)
      simp [cell, hcond]
  · unfold chartMark
    rw [if_neg hb]
    have hcond : ¬(v.seatRow == (r : Int) && v.seatColumn == (c : Int)) = true := by
      simp only [Bool.and_eq_true, beq_iff_eq]
      rintro ⟨hrr, hcc⟩
      exact hb ⟨by omega, by omega, by omega, by omega⟩
    simp [hcond]

lemma foldl_chartMark_shape (l : List Reservation) :
    ∀ chart : List (List Char), chart.length = 12 →
      (∀ i, i < 12 → (chart.getD i []).length = 4) →
      (l.foldl chartMark chart).length = 12 ∧
        ∀ i, i < 12 → ((l.foldl chartMark chart).getD i []).length = 4 := by
  induction l with
  | nil => intro chart h1 h2; exact ⟨h1, h2⟩
  | cons v l ih =>
    intro chart h1 h2
    simp only [List.foldl_cons]
    exact ih (chartMark chart v) (by rw [chartMark_length]; exact h1)
      (fun i hi => by rw [chartMark_rowlen]; exact h2 i hi)

lemma cell_foldl_chartMark (l : List Reservation) :
    ∀ chart : List (List Char), chart.length = 12 →
      (∀ i, i < 12 → (chart.getD i []).length = 4) →
      ∀ r c : Nat, r < 12 → c < 4 →
      cell (l.foldl chartMark chart) r c =
        if l.any (fun v => v.seatRow == (r : Int) && v.seatColumn == (c : Int)) then 'X'
        else cell chart r c := by
  induction l with
  | nil => intro chart h1 h2 r c hr hc; simp
  | cons v l ih =>
    intro chart h1 h2 r c hr hc
    simp only [List.foldl_cons, List.any_cons]
    rw [ih (chartMark chart v) (by rw [chartMark_length]; exact h1)
      (fun i hi => by rw [chartMark_rowlen]; exact h2 i hi) r c hr hc]
    rw [cell_chartMark chart v r c hr hc h1 h2]
    by_cases hv : (v.seatRow == (r : Int) && v.seatColumn == (c : Int)) = true
    · simp [hv]
    · rw [Bool.not_eq_true] at hv
      simp [hv]

lemma chart_cell (rows : List Reservation) (r c : Nat) (hr : r < 12) (hc : c < 4) :
    cell (get_seating_chart rows) r c =
      if rows.any (fun v => v.seatRow == (r : Int) && v.seatColumn == (c : Int)) then 'X'
      else 'O' := by
  have h0 : ∀ r' : Nat, r' < 12 → ∀ c' : Nat, c' < 4 → cell chartInit r' c' = 'O' := by
    decide
  rw [get_seating_chart,
    cell_foldl_chartMark rows chartInit chartInit_length chartInit_rowlen r c hr hc,
    h0 r hr c hc]

lemma chart_shape (rows : List Reservation) :
    (get_seating_chart rows).length = 12 ∧
      ∀ i, i < 12 → ((get_seating_chart rows).getD i []).length = 4 :=
  foldl_chartMark_shape rows chartInit chartInit_length chartInit_rowlen

lemma chart_ignores_out_of_bounds (rows : List Reservation) (v : Reservation)
    (hv : ¬inBounds v) :
    get_seating_chart (rows ++ [v]) = get_seating_chart rows := by
  simp [get_seating_chart, List.foldl_append, chartMark, hv]

lemma calculate_total_sales_eq (rows : List Reservation) :
    calculate_total_sales rows =
      ((rows.filter (fun v => decide (inBounds v))).map
        (fun v => (get_cost_matrix.getD v.seatRow.toNat []).getD v.seatColumn.toNat 0)).sum := by
  suffices h : ∀ (l : List Reservation) (a : Int),
      l.foldl (fun total v =>
        if inBounds v then
          total + (get_cost_matrix.getD v.seatRow.toNat []).getD v.seatColumn.toNat 0
        else total) a
        = a + ((l.filter (fun v => decide (inBounds v))).map
            (fun v => (get_cost_matrix.getD v.seatRow.toNat []).getD v.seatColumn.toNat 0)).sum by
    simpa [calculate_total_sales] using h rows 0
  intro l
  induction l with
  | nil => intro a; simp
  | cons v l ih =>
    intro a
    simp only [List.foldl_cons, List.filter_cons]
    by_cases hv : inBounds v
    · rw [if_pos hv, ih, if_pos (decide_eq_true hv), List.map_cons, List.sum_cons]
      ring
    · rw [if_neg hv, ih, if_neg (by simp [hv])]

lemma token_hex_length (bytes : List Nat) : (token_hex bytes).length = 2 * bytes.length := by
  induction bytes with
  | nil => rfl
  | cons b bs ih =>
    simp [token_hex, String.length] at ih ⊢
    omega

lemma hexChar_toUpper_mem (n : Nat) (h : n < 16) :
    Char.toUpper (hexChar n) ∈ ("0123456789ABCDEF").data := by
  interval_cases n <;> decide

lemma admin_login_succeeds_iff (admins : List Admin)
    (hne : ∀ a ∈ admins, a.username ≠ "" ∧ a.password ≠ "")
    (u? p? : Option String) :
    (admin_login admins u? p?).1 = .dashboard ↔
      ∃ a ∈ admins, u? = some a.username ∧ p? = some a.password := by
  unfold admin_login
  by_cases hemp : falsyField u? = true ∨ falsyField p? = true
  · rw [if_pos hemp]
    constructor
    · intro h; simp at h
    · rintro ⟨a, ha, rfl, rfl⟩
      obtain ⟨h1, h2⟩ := hne a ha
      simp [falsyField, h1, h2] at hemp
  · rw [if_neg hemp]
    cases hfind : admins.find? (fun a => some a.username == u? && some a.password == p?) with
    | some a =>
      have hp := List.find?_some hfind
      have hm := List.mem_of_find?_eq_some hfind
      simp only [Bool.and_eq_true, beq_iff_eq] at hp
      simp only [hfind]
      constructor
      · intro _; exact ⟨a, hm, hp.1.symm, hp.2.symm⟩
      · intro _; simp
    | none =>
      rw [List.find?_eq_none] at hfind
      simp only [List.find?_eq_none.mpr hfind]
      constructor
      · intro h; simp at h
      · rintro ⟨a, ha, hu, hpw⟩
        exact absurd (by simp [hu, hpw] :
          (some a.username == u? && some a.password == p?) = true) (hfind a ha)

lemma admin_login_wrong_password (admins : List Admin) (u p : String)
    (hu : u ≠ "") (hp : p ≠ "")
    (hno : ¬∃ a ∈ admins, a.username = u ∧ a.password = p) :
    admin_login admins (some u) (some p) = (.authFailure, false) := by
  unfold admin_login
  rw [if_neg]
  · cases hfind : admins.find?
        (fun a => some a.username == some u && some a.password == some p) with
    | some a =>
      exfalso
      have hpa := List.find?_some hfind
      have hm := List.mem_of_find?_eq_some hfind
      simp only [Bool.and_eq_true, beq_iff_eq, Option.some.injEq] at hpa
      exact hno ⟨a, hm, hpa.1, hpa.2⟩
    | none => simp [hfind]
  · simp [falsyField, hu, hp]

/-- Faithfulness of the interleaving model: for a request whose input passed
name and range validation, running its two atomic steps back to back produces
exactly the store that the sequential `make_reservation` produces. -/
lemma txStep_pair_eq_make_reservation (s : Store) (f l t : String) (r c : Int)
    (hf : pyStrip f ≠ "") (hl : pyStrip l ≠ "")
    (hrange : 0 ≤ r ∧ r < 12 ∧ 0 ≤ c ∧ c < 4) :
    (txStep (txStep s .start ⟨pyStrip f ++ " " ++ pyStrip l, t⟩ r c).1
        (txStep s .start ⟨pyStrip f ++ " " ++ pyStrip l, t⟩ r c).2
        ⟨pyStrip f ++ " " ++ pyStrip l, t⟩ r c).1
      = (make_reservation s f l (some r) (some c) t).2 := by
  by_cases hfree : is_seat_available s.rows r c = true
  · simp [txStep, hfree, make_reservation_success s f l r c t hf hl hrange hfree]
  · have hf2 : is_seat_available s.rows r c = false := by simpa using hfree
    simp [txStep, hf2, make_reservation_taken s f l r c t hf hl hrange hf2]

/-!  Claim theorems. -/

/-- Claim C1: every store reachable from the empty database by booking and
admin delete operations has at most one reservation record per (row, column)
pair; in particular a booking attempt on an occupied seat never creates a
second record for that seat. -/
theorem reachable_stores_seat_unique (s : Store) (h : Reachable s) :
    seatUnique s.rows := by
  induction h with
  | empty => simp [store0, seatUnique]
  | book s f l r? c? t hs ih =>
    rcases make_reservation_cases s f l r? c? t with ⟨heq, -⟩ | ⟨r, c, -, -, hrange, hfree, heq⟩
    · rw [heq]; exact ih
    · rw [heq]
      unfold seatUnique at ih ⊢
      rw [List.pairwise_append]
      refine ⟨ih, by simp, ?_⟩
      intro a ha b hb
      simp only [List.mem_singleton] at hb
      subst hb
      have hna := (is_seat_available_iff s.rows r c).mp hfree a ha
      simpa using hna
  | del s logged rid hs ih =>
    exact List.Pairwise.sublist (delete_rows_sublist logged s rid) ih

theorem reachable_stores_seat_unique_witness :
    seatUnique ((make_reservation store0 "Ada" "Lovelace" (some 3) (some 2)
      "1D9C5A7B02E4").2).rows :=
  reachable_stores_seat_unique _ (Reachable.book store0 "Ada" "Lovelace" (some 3) (some 2)
    "1D9C5A7B02E4" Reachable.empty)

/-- Claim C2: the claim asks for exactly one winner among concurrent booking
attempts on the same seat, but the code has an unsynchronised
check-then-insert: under the interleaving where both requests pass the
availability check of line 155 before either commits its insert of lines
172-173, both requests succeed and the store ends with two records for seat
(0, 0) — the seat-uniqueness property fails in the final store. -/
theorem concurrent_booking_race :
    runRace ⟨"Alice Smith", "1D9C5A7B02E4"⟩ ⟨"Bob Jones", "77A0B1C2D3E4"⟩ 0 0
        [false, true, false, true] ⟨store0, .start, .start⟩
      = ⟨⟨[⟨1, "Alice Smith", 0, 0, "1D9C5A7B02E4"⟩,
           ⟨2, "Bob Jones", 0, 0, "77A0B1C2D3E4"⟩], 3⟩, .succeeded, .succeeded⟩
    ∧ ¬ seatUnique (runRace ⟨"Alice Smith", "1D9C5A7B02E4"⟩ ⟨"Bob Jones", "77A0B1C2D3E4"⟩
        0 0 [false, true, false, true] ⟨store0, .start, .start⟩).store.rows := by
  constructor
  · decide
  · decide

/-- Claim C3: for an in-range free seat, a booking with valid names succeeds,
the seat map then shows 'X' at that seat, and a second booking attempt on the
same seat with valid names fails with the seat-taken response and leaves the
store unchanged. -/
theorem booked_seat_reserved_then_taken (s : Store) (f l f2 l2 t t2 : String) (r c : Int)
    (hf : pyStrip f ≠ "") (hl : pyStrip l ≠ "")
    (hf2 : pyStrip f2 ≠ "") (hl2 : pyStrip l2 ≠ "")
    (hrange : 0 ≤ r ∧ r < 12 ∧ 0 ≤ c ∧ c < 4)
    (hfree : is_seat_available s.rows r c = true) :
    (make_reservation s f l (some r) (some c) t).1
        = .confirmed (pyStrip f ++ " " ++ pyStrip l) r c t
    ∧ cell (get_seating_chart (make_reservation s f l (some r) (some c) t).2.rows)
        r.toNat c.toNat = 'X'
    ∧ make_reservation (make_reservation s f l (some r) (some c) t).2 f2 l2
        (some r) (some c) t2
      = (.seatTaken, (make_reservation s f l (some r) (some c) t).2) := by
  have hsucc := make_reservation_success s f l r c t hf hl hrange hfree
  obtain ⟨hr0, hr1, hc0, hc1⟩ := hrange
  have harr : ((r.toNat : Nat) : Int) = r := Int.toNat_of_nonneg hr0
  have hacc : ((c.toNat : Nat) : Int) = c := Int.toNat_of_nonneg hc0
  refine ⟨by rw [hsucc], ?_, ?_⟩
  · rw [hsucc]
    rw [chart_cell _ _ _ (by omega) (by omega)]
    rw [if_pos]
    simp [List.any_append, harr, hacc]
  · rw [hsucc]
    apply make_reservation_taken _ _ _ _ _ _ hf2 hl2 ⟨hr0, hr1, hc0, hc1⟩
    exact is_seat_available_false_of_mem _ r c
      ⟨s.nextId, pyStrip f ++ " " ++ pyStrip l, r, c, t⟩ (by simp) rfl rfl

theorem booked_seat_reserved_then_taken_witness :
    (make_reservation store0 "John" "Doe" (some 3) (some 2) "1D9C5A7B02E4").1
        = .confirmed (pyStrip "John" ++ " " ++ pyStrip "Doe") 3 2 "1D9C5A7B02E4"
    ∧ cell (get_seating_chart
        (make_reservation store0 "John" "Doe" (some 3) (some 2) "1D9C5A7B02E4").2.rows)
        (Int.toNat 3) (Int.toNat 2) = 'X'
    ∧ make_reservation
        (make_reservation store0 "John" "Doe" (some 3) (some 2) "1D9C5A7B02E4").2
        "Jane" "Roe" (some 3) (some 2) "77A0B1C2D3E4"
      = (.seatTaken,
         (make_reservation store0 "John" "Doe" (some 3) (some 2) "1D9C5A7B02E4").2) :=
  booked_seat_reserved_then_taken store0 "John" "Doe" "Jane" "Roe"
    "1D9C5A7B02E4" "77A0B1C2D3E4" 3 2
    (by decide) (by decide) (by decide) (by decide) (by decide) (by decide)

/-- Claim C4: with valid non-empty names, booking at row 12 (any column) or
column 4 (any row) always yields the invalid-seat response, while booking the
in-range boundary seat at row 11, column 3 succeeds whenever it is free. -/
theorem boundary_seat_validation (s : Store) (f l t : String)
    (hf : pyStrip f ≠ "") (hl : pyStrip l ≠ "") (r c : Int) :
    (make_reservation s f l (some 12) (some c) t).1 = .invalidSeat
    ∧ (make_reservation s f l (some r) (some 4) t).1 = .invalidSeat
    ∧ (is_seat_available s.rows 11 3 = true →
        (make_reservation s f l (some 11) (some 3) t).1
          = .confirmed (pyStrip f ++ " " ++ pyStrip l) 11 3 t) := by
  refine ⟨?_, ?_, ?_⟩
  · rw [make_reservation_out_of_range s f l 12 c t hf hl (by omega)]
  · rw [make_reservation_out_of_range s f l r 4 t hf hl (by omega)]
  · intro hfree
    rw [make_reservation_success s f l 11 3 t hf hl (by norm_num) hfree]

theorem boundary_seat_validation_witness :
    (make_reservation store0 "John" "Doe" (some 12) (some 2) "1D9C5A7B02E4").1
        = .invalidSeat
    ∧ (make_reservation store0 "John" "Doe" (some 5) (some 4) "1D9C5A7B02E4").1
        = .invalidSeat
    ∧ (is_seat_available store0.rows 11 3 = true →
        (make_reservation store0 "John" "Doe" (some 11) (some 3) "1D9C5A7B02E4").1
          = .confirmed (pyStrip "John" ++ " " ++ pyStrip "Doe") 11 3 "1D9C5A7B02E4") :=
  boundary_seat_validation store0 "John" "Doe" "1D9C5A7B02E4" (by decide) (by decide) 5 2

/-- Claim C5: the cost matrix is the constant 12 by 4 grid with every row
equal to 100, 75, 50, 100; the sales total is the sum of the matrix price at
each in-bounds reservation (out-of-bounds reservations are skipped); and the
totals over the example reservation sets are 200, 75 and 50. -/
theorem pricing_and_total_sales :
    get_cost_matrix = List.replicate 12 [100, 75, 50, 100]
    ∧ (∀ rows : List Reservation, calculate_total_sales rows =
        ((rows.filter (fun v => decide (inBounds v))).map
          (fun v => (get_cost_matrix.getD v.seatRow.toNat []).getD v.seatColumn.toNat 0)).sum)
    ∧ calculate_total_sales [⟨1, "A B", 0, 0, "T1"⟩, ⟨2, "C D", 5, 3, "T2"⟩] = 200
    ∧ calculate_total_sales [⟨1, "A B", 0, 1, "T1"⟩] = 75
    ∧ calculate_total_sales [⟨1, "A B", 0, 2, "T1"⟩] = 50 :=
  ⟨by decide, calculate_total_sales_eq, by decide, by decide, by decide⟩

/-- Claim C6: the seat map computed from any reservation list is a 12 by 4
grid whose cell at any in-range (r, c) is 'X' exactly when some reservation
sits at (r, c) and 'O' otherwise, and appending a reservation with
out-of-bounds coordinates leaves the computed map unchanged. -/
theorem seating_chart_spec (rows : List Reservation) (r c : Nat)
    (hr : r < 12) (hc : c < 4) :
    (get_seating_chart rows).length = 12
    ∧ (∀ i, i < 12 → ((get_seating_chart rows).getD i []).length = 4)
    ∧ cell (get_seating_chart rows) r c =
        (if rows.any (fun v => v.seatRow == (r : Int) && v.seatColumn == (c : Int))
         then 'X' else 'O')
    ∧ (∀ v : Reservation, ¬inBounds v →
        get_seating_chart (rows ++ [v]) = get_seating_chart rows) :=
  ⟨(chart_shape rows).1, (chart_shape rows).2, chart_cell rows r c hr hc,
    fun v hv => chart_ignores_out_of_bounds rows v hv⟩

theorem seating_chart_spec_witness :
    (get_seating_chart [⟨1, "John Doe", 3, 2, "A1"⟩]).length = 12
    ∧ (∀ i, i < 12 →
        ((get_seating_chart [⟨1, "John Doe", 3, 2, "A1"⟩]).getD i []).length = 4)
    ∧ cell (get_seating_chart [⟨1, "John Doe", 3, 2, "A1"⟩]) 3 2 =
        (if [(⟨1, "John Doe", 3, 2, "A1"⟩ : Reservation)].any
            (fun v => v.seatRow == ((3 : Nat) : Int) && v.seatColumn == ((2 : Nat) : Int))
         then 'X' else 'O')
    ∧ (∀ v : Reservation, ¬inBounds v →
        get_seating_chart ([⟨1, "John Doe", 3, 2, "A1"⟩] ++ [v])
          = get_seating_chart [⟨1, "John Doe", 3, 2, "A1"⟩]) :=
  seating_chart_spec [⟨1, "John Doe", 3, 2, "A1"⟩] 3 2 (by decide) (by decide)

/-- Claim C7: over any admins table whose accounts have non-empty
credentials (all accounts this system ever creates do), a login attempt from
a logged-out session succeeds exactly when some stored account matches both
the submitted username and password; and with non-empty submitted
credentials matching no account, the attempt fails with the
invalid-credentials response and leaves the session logged out. -/
theorem admin_login_spec (admins : List Admin)
    (hne : ∀ a ∈ admins, a.username ≠ "" ∧ a.password ≠ "")
    (u? p? : Option String) :
    ((admin_login admins u? p?).1 = .dashboard ↔
      ∃ a ∈ admins, u? = some a.username ∧ p? = some a.password)
    ∧ (∀ u p : String, u ≠ "" → p ≠ "" →
        (¬∃ a ∈ admins, a.username = u ∧ a.password = p) →
        admin_login admins (some u) (some p) = (.authFailure, false)) :=
  ⟨admin_login_succeeds_iff admins hne u? p?,
   fun u p hu hp hno => admin_login_wrong_password admins u p hu hp hno⟩

theorem admin_login_spec_witness :
    (((admin_login (init_db_admins []) (some "admin") (some "admin123")).1 = .dashboard ↔
      ∃ a ∈ init_db_admins [],
        some "admin" = some a.username ∧ some "admin123" = some a.password)
    ∧ (∀ u p : String, u ≠ "" → p ≠ "" →
        (¬∃ a ∈ init_db_admins [], a.username = u ∧ a.password = p) →
        admin_login (init_db_admins []) (some u) (some p) = (.authFailure, false))) :=
  admin_login_spec (init_db_admins []) (by decide) (some "admin") (some "admin123")

/-- Claim C8: a delete request for any reservation id while the session is
logged out yields the unauthorized redirect and returns the store unchanged —
no record is removed. -/
theorem delete_requires_login (s : Store) (rid : Nat) :
    delete_reservation false s rid = (.unauthorized, s) := by
  simp [delete_reservation]

/-- Claim C9: the ticket number generated from any 6 random bytes is a string
of length exactly 12 made only of uppercase hexadecimal characters. -/
theorem eticket_format (bytes : List Nat) (h6 : bytes.length = 6)
    (hb : ∀ b ∈ bytes, b < 256) :
    (generate_eticket_number bytes).length = 12
    ∧ ∀ ch ∈ (generate_eticket_number bytes).data, ch ∈ ("0123456789ABCDEF").data := by
  constructor
  · rw [generate_eticket_number, pyUpper_length, token_hex_length, h6]
  · intro ch hch
    have hdata : (generate_eticket_number bytes).data
        = ((bytes.map (fun b => [hexChar (b / 16), hexChar (b % 16)])).flatten).map
            Char.toUpper := rfl
    rw [hdata] at hch
    obtain ⟨ch0, hch0, rfl⟩ := List.mem_map.mp hch
    obtain ⟨lsub, hlsub, hch1⟩ := List.mem_flatten.mp hch0
    obtain ⟨b, hbmem, rfl⟩ := List.mem_map.mp hlsub
    have hble := hb b hbmem
    simp only [List.mem_cons, List.mem_singleton, List.not_mem_nil, or_false] at hch1
    rcases hch1 with rfl | rfl
    · exact hexChar_toUpper_mem _ (by omega)
    · exact hexChar_toUpper_mem _ (by omega)

theorem eticket_format_witness :
    (generate_eticket_number [0, 1, 171, 255, 16, 9]).length = 12
    ∧ ∀ ch ∈ (generate_eticket_number [0, 1, 171, 255, 16, 9]).data,
        ch ∈ ("0123456789ABCDEF").data :=
  eticket_format [0, 1, 171, 255, 16, 9] (by decide) (by decide)

/-- Claim C10: every run of the booking handler either fails (empty stripped
name, unparseable seat field, out-of-range coordinates, or occupied seat) and
returns the store unchanged with no confirmed response, or succeeds and
appends exactly one record whose passenger name is the stripped first name, a
space, and the stripped last name. -/
theorem booking_all_or_nothing (s : Store) (f l : String) (r? c? : Option Int) (t : String) :
    ((make_reservation s f l r? c? t).2 = s
      ∧ ∀ n r c tk, (make_reservation s f l r? c? t).1 ≠ .confirmed n r c tk)
    ∨ (∃ r c : Int, r? = some r ∧ c? = some c
        ∧ make_reservation s f l r? c? t =
            (.confirmed (pyStrip f ++ " " ++ pyStrip l) r c t,
             ⟨s.rows ++ [⟨s.nextId, pyStrip f ++ " " ++ pyStrip l, r, c, t⟩],
              s.nextId + 1⟩)) := by
  rcases make_reservation_cases s f l r? c? t with h | ⟨r, c, h1, h2, -, -, heq⟩
  · exact Or.inl h
  · exact Or.inr ⟨r, c, h1, h2, heq⟩

end SeatApp
